import Mathlib

/-!
Verification of the Tanita BC-601/BC-603 ingestion-and-analysis core
(`src/tanita_parser.py`) against its natural-language specification.

The program is embedded shallowly: Python dictionaries become association
lists over an explicit value type, Python floats become exact rationals
(`Rat`), and fallible operations return `Option`.  Each definition carries
a comment pointing at the source lines it embeds.
-/

namespace Tanita

/-! ## String helpers

The source manipulates Python strings with `strip`, `lower`, `replace`,
`split`-like parsing and `float`.  We model each of those operations at the
character-list level so that every definition is executable and every
concrete instance can be settled by `decide`.
-/

/-- Numeric value of a list of decimal digit characters (most significant
first), as read by a left fold. -/
def digitsVal (l : List Char) : Nat :=
  l.foldl (fun a c => a * 10 + (c.toNat - '0'.toNat)) 0

/-- Drop leading whitespace, as Python `str.lstrip()` does on ASCII data. -/
def dropLeadWS (s : String) : String :=
  ⟨s.data.dropWhile Char.isWhitespace⟩

/-- Drop trailing whitespace, as Python `str.rstrip()` does on ASCII data. -/
def dropTrailWS (s : String) : String :=
  ⟨(s.data.reverse.dropWhile Char.isWhitespace).reverse⟩

/-- Python `str.strip()`: whitespace removed from both ends (the source
applies it to every code and value token, lines 107-108). -/
def pyStrip (s : String) : String :=
  dropLeadWS (dropTrailWS s)

/-- Python `str.lower()`.  The device strings compared in the source are
ASCII, where Python lowercasing agrees with per-character ASCII
lowercasing. -/
def pyLower (s : String) : String :=
  ⟨s.data.map Char.toLower⟩

/-- Split a character list at every occurrence of the separator `c`
(occurrences are not kept; `splitChar c []` is `[[]]`, matching Python
`"".split(sep)` returning one empty part). -/
def splitChar (c : Char) (l : List Char) : List (List Char) :=
  l.foldr
    (fun x acc =>
      if x = c then [] :: acc
      else
        match acc with
        | a :: as => (x :: a) :: as
        | [] => [[x]])
    [[]]

/-- Mantissa of Python `float`: an optional integer part, an optional
single decimal point, an optional fractional part, with at least one digit
overall. -/
def parseMantissa (l : List Char) : Option Rat :=
  let intPart := l.takeWhile Char.isDigit
  let rest := l.dropWhile Char.isDigit
  match rest with
  | [] => if intPart.isEmpty then none else some (digitsVal intPart : Rat)
  | '.' :: frac =>
    if frac.all Char.isDigit && (!intPart.isEmpty || !frac.isEmpty) then
      some ((digitsVal intPart : Rat) + (digitsVal frac : Rat) / (10 ^ frac.length))
    else none
  | _ => none

/-- Python built-in `float(s)` on the fixed-point decimal notation the
device emits: surrounding whitespace is ignored, an optional sign precedes
digits with at most one decimal point; anything else fails.  (Exponent,
infinity, NaN and underscore forms accepted by CPython never occur in
device exports and are modelled as failures.)  Floats are idealised as
exact rationals. -/
def pyFloat (s : String) : Option Rat :=
  let l := (dropLeadWS (dropTrailWS s)).data
  match l with
  | '+' :: rest => parseMantissa rest
  | '-' :: rest => (parseMantissa rest).map Neg.neg
  | rest => parseMantissa rest

/-- Python `s.replace("%", "")`: since the pattern is a single character,
this removes every percent sign. -/
def stripPct (s : String) : String :=
  ⟨s.data.filter (fun c => c ≠ '%')⟩

/-- Python `s.replace(",", ".")`: every comma becomes a dot. -/
def commaToDot (s : String) : String :=
  ⟨s.data.map (fun c => if c = ',' then '.' else c)⟩

/-! ## Numeric normalization

The spec names one function `to_number`; the source inlines the pattern
`float(str(v).replace("%", "").replace(",", "."))` at several sites, and at
two sites omits the percent replacement.  One definition per source site
records exactly what each site computes.
-/

/-- The normalization pattern shared by most call sites:
`float(str(v).replace("%", "").replace(",", "."))`. -/
def to_number (s : String) : Option Rat :=
  pyFloat (commaToDot (stripPct s))

/-- Modelled from the spec: `to_number` as §4.3 words it — strip a
*trailing* percent sign if present, replace commas with dots, then attempt
a decimal parse.  Kept separate from `to_number` (the source pattern) so
the two policies can be compared. -/
def to_number_spec (s : String) : Option Rat :=
  let s1 := if s.data.getLast? = some '%' then (⟨s.data.dropLast⟩ : String) else s
  pyFloat (commaToDot s1)

/-- Body-fat classification site, line 545:
`float(str(grasa).replace("%", "").replace(",", "."))`. -/
def normGrasaStr (s : String) : Option Rat :=
  pyFloat (commaToDot (stripPct s))

/-- BMI classification site, line 574: `float(str(imc).replace(",", "."))`
— no percent replacement. -/
def normIMCStr (s : String) : Option Rat :=
  pyFloat (commaToDot s)

/-- Muscle classification site, line 589. -/
def normMuscStr (s : String) : Option Rat :=
  pyFloat (commaToDot (stripPct s))

/-- Body-water classification site, line 618. -/
def normAguaStr (s : String) : Option Rat :=
  pyFloat (commaToDot (stripPct s))

/-- Visceral-fat classification site, line 647:
`float(str(visceral).replace(",", "."))` — no percent replacement. -/
def normVisceralStr (s : String) : Option Rat :=
  pyFloat (commaToDot s)

/-- Comparison-table site, lines 799-800. -/
def normTableStr (s : String) : Option Rat :=
  pyFloat (commaToDot (stripPct s))

/-- Comparison-chart site (`_plot_comparison_chart`), lines 212-213. -/
def normChartStr (s : String) : Option Rat :=
  pyFloat (commaToDot (stripPct s))

/-! ## Measurement dictionaries

A Python measurement is a heterogeneous dict holding the provenance
entries `"file"` (string), `"row"` (int) and `"raw_data"` (token list)
alongside the decoded string fields.  `Val` covers those three shapes and
`Dict` is an insertion-ordered association list with Python dict update
semantics (an existing key keeps its position and gets the new value).
-/

inductive Val where
  | str (s : String)
  | int (n : Nat)
  | row (r : List String)
deriving DecidableEq, Repr

abbrev Dict := List (String × Val)

/-- Python `d[k] = v`: update in place if the key exists, else append. -/
def dictInsert : Dict → String → Val → Dict
  | [], k, v => [(k, v)]
  | (k0, v0) :: rest, k, v =>
    if k0 = k then (k0, v) :: rest else (k0, v0) :: dictInsert rest k v

/-- Python `d.get(k)`: first (and, by construction, only) binding of `k`. -/
def dictGet : Dict → String → Option Val
  | [], _ => none
  | (k0, v0) :: rest, k => if k0 = k then some v0 else dictGet rest k

/-- `d.get(k)` specialised to string-valued fields (every decoded field is
a string; the provenance keys are never requested by the call sites this
development covers). -/
def getStr (d : Dict) (k : String) : Option String :=
  match dictGet d k with
  | some (Val.str s) => some s
  | _ => none

/-- The fixed code table `TANITA_MAPPINGS` (lines 33-67), verbatim. -/
def TANITA_MAPPINGS : List (String × String) := [
  ("0", "Desconocido: 16"),
  ("~0", "Unidad de longitud"),
  ("~1", "Unidad de masa"),
  ("~2", "Desconocido: 4"),
  ("~3", "Desconocido: 3"),
  ("Bt", "Modo atleta (0=Normal, 2=Atleta)"),
  ("Wk", "Masa corporal (kg)"),
  ("MI", "Índice de masa corporal (IMC)"),
  ("MO", "Modelo"),
  ("DT", "Fecha de medición"),
  ("Ti", "Hora de medición"),
  ("GE", "Género"),
  ("AG", "Edad"),
  ("Hm", "Altura (cm)"),
  ("AL", "Nivel de actividad"),
  ("FW", "Grasa corporal total %"),
  ("Fr", "Grasa del brazo (derecho) %"),
  ("Fl", "Grasa del brazo (izquierdo) %"),
  ("FR", "Grasa de la pierna (derecha) %"),
  ("FL", "Grasa de la pierna (izquierda) %"),
  ("FT", "Grasa del torso %"),
  ("mW", "Músculo corporal total %"),
  ("mr", "Músculo del brazo (derecho) %"),
  ("ml", "Músculo del brazo (izquierdo) %"),
  ("mR", "Músculo de la pierna (derecha) %"),
  ("mL", "Músculo de la pierna (izquierda) %"),
  ("mT", "Músculo del torso %"),
  ("bw", "Masa ósea estimada (kg)"),
  ("IF", "Índice de grasa visceral"),
  ("rA", "Edad metabólica estimada"),
  ("rD", "Ingesta calórica diaria (ICD)"),
  ("ww", "Agua corporal total %"),
  ("CS", "Desconocido: BC")]

/-- `header in TANITA_MAPPINGS` lookup (line 110). -/
def tanitaLookup (code : String) : Option String :=
  (TANITA_MAPPINGS.find? (fun p => p.1 == code)).map Prod.snd

/-- The dict key one code/value pair is stored under (lines 107-113): the
header is stripped; a mapped header stores under its field name, an
unmapped one under `"Unknown_"` plus the stripped header. -/
def storeKey (c : String) : String :=
  match tanitaLookup (pyStrip c) with
  | some name => name
  | none => "Unknown_" ++ pyStrip c

/-- The pair loop of `_parse_measurement_row` (lines 106-113):
`for i in range(0, len(row) - 1, 2)` consumes the tokens two at a time and
a trailing unpaired token never enters the loop, so the loop is the
two-at-a-time recursion below.  Values are stripped like headers. -/
def decodePairs : List String → Dict → Dict
  | c :: v :: rest, d => decodePairs rest (dictInsert d (storeKey c) (Val.str (pyStrip v)))
  | _, d => d

/-- `os.path.basename` on POSIX: the part after the last slash. -/
def pyBasename (p : String) : String :=
  ⟨(p.data.reverse.takeWhile (fun c => c ≠ '/')).reverse⟩

/-- `_parse_measurement_row` (lines 97-115): the dict starts with the
provenance entries and then receives every decoded pair. -/
def parseMeasurementRow (row : List String) (filePath : String) (rowNum : Nat) : Dict :=
  decodePairs row
    [("file", Val.str (pyBasename filePath)),
     ("row", Val.int (rowNum + 1)),
     ("raw_data", Val.row row)]

/-- The row loop of `parse_csv_file` for measurement files (lines 85-90):
rows are numbered from `k`, and a row that is empty or has fewer than two
tokens is skipped (`not row or len(row) < 2` is exactly `len(row) < 2`). -/
def parseCsvRowsFrom (filePath : String) : Nat → List (List String) → List Dict
  | _, [] => []
  | k, r :: rs =>
    if r.length < 2 then parseCsvRowsFrom filePath (k + 1) rs
    else parseMeasurementRow r filePath k :: parseCsvRowsFrom filePath (k + 1) rs

/-- All measurements decoded from the rows of one file. -/
def parseCsvRows (rows : List (List String)) (filePath : String) : List Dict :=
  parseCsvRowsFrom filePath 0 rows

/-! ## Chronological sorter

`_get_sorted_measurements` (lines 127-141) keys each measurement by
`datetime.strptime(f"{fecha} {hora}", "%d/%m/%Y %H:%M:%S")`, falling back
to `datetime.min` when either field is missing, empty (Python falsiness)
or unparsable.  CPython compiles `%d` to the pattern `3[01]|[12]\d|0[1-9]|[1-9]`,
`%m` to `1[0-2]|0[1-9]|[1-9]`, `%Y` to four digits, `%H` to
`2[0-3]|[0-1]\d|\d`, `%M` and `%S` to `[0-5]\d|\d`, anchors the match at
both ends, and the `datetime` constructor then validates the day against
the month (leap years included) and rejects year 0.  Each numeric field
pattern is equivalent to "one or two digits whose value lies in the field
range", so the parser below checks exactly that.  Because the two fields
are joined with one space and the format has one (whitespace-run) literal
between `%Y` and `%H`, the combined parse succeeds exactly when the date
field minus trailing whitespace matches `%d/%m/%Y` and the time field
minus leading whitespace matches `%H:%M:%S`.
-/

/-- A one-or-two-digit numeric field with an inclusive range check. -/
def parseField2 (l : List Char) (lo hi : Nat) : Option Nat :=
  if l.all Char.isDigit && (l.length = 1 || l.length = 2)
      && lo ≤ digitsVal l && digitsVal l ≤ hi then
    some (digitsVal l)
  else none

/-- `%Y`: exactly four digits; year 0 is folded in as a failure because
`datetime` rejects it (MINYEAR is 1). -/
def parseYear (l : List Char) : Option Nat :=
  if l.all Char.isDigit && l.length = 4 && 1 ≤ digitsVal l then
    some (digitsVal l)
  else none

/-- Gregorian leap-year rule, as `datetime` uses for day validation. -/
def isLeap (y : Nat) : Bool :=
  y % 4 = 0 && (y % 100 ≠ 0 || y % 400 = 0)

/-- Days in a month (`m` is already known to lie in 1..12). -/
def daysInMonth (y m : Nat) : Nat :=
  if m = 2 then (if isLeap y then 29 else 28)
  else if m = 4 || m = 6 || m = 9 || m = 11 then 30
  else 31

/-- `%d/%m/%Y` over a whole string: day 1..31, month 1..12, four-digit
year, then the day-in-month validation of the constructor. -/
def parseFecha (s : String) : Option (Nat × Nat × Nat) :=
  match splitChar '/' s.data with
  | [d, m, y] =>
    match parseField2 d 1 31, parseField2 m 1 12, parseYear y with
    | some dv, some mv, some yv =>
      if dv ≤ daysInMonth yv mv then some (yv, mv, dv) else none
    | _, _, _ => none
  | _ => none

/-- `%H:%M:%S` over a whole string. -/
def parseHora (s : String) : Option (Nat × Nat × Nat) :=
  match splitChar ':' s.data with
  | [h, mi, se] =>
    match parseField2 h 0 23, parseField2 mi 0 59, parseField2 se 0 59 with
    | some hv, some miv, some sev => some (hv, miv, sev)
    | _, _, _ => none
  | _ => none

/-- A datetime collapsed to one natural number; the factors strictly bound
each field (month < 13, day < 32, hour < 24, minute and second < 60), so
comparison of encodings is comparison of datetimes. -/
def encodeDT (y mo d h mi s : Nat) : Nat :=
  ((((y * 13 + mo) * 32 + d) * 24 + h) * 60 + mi) * 60 + s

/-- `datetime.min`, the fallback sort key: year 1, January 1, midnight. -/
def dtMin : Nat := encodeDT 1 1 1 0 0 0

/-- The successful branch of `parse_datetime` (lines 130-139): both fields
present and truthy, and the combined string matches the format. -/
def parseDatetimeOpt (m : Dict) : Option Nat :=
  match getStr m "Fecha de medición", getStr m "Hora de medición" with
  | some f, some h =>
    if f == "" || h == "" then none
    else
      match parseFecha (dropTrailWS f), parseHora (dropLeadWS h) with
      | some (y, mo, d), some (hh, mi, ss) => some (encodeDT y mo d hh mi ss)
      | _, _ => none
  | _, _ => none

/-- The sort key of `_get_sorted_measurements`: the parsed datetime, or
`datetime.min` when parsing is impossible. -/
def parseDatetime (m : Dict) : Nat :=
  (parseDatetimeOpt m).getD dtMin

/-- Insert a measurement into an already-sorted list, before the first
element whose key is not smaller.  Processing the input head-first with
this insertion is a stable ascending sort, so it computes the same list as
the stable Python `sorted(measurements, key=parse_datetime)`. -/
def insertByKey (x : Dict) : List Dict → List Dict
  | [] => [x]
  | y :: ys =>
    if parseDatetime x ≤ parseDatetime y then x :: y :: ys
    else y :: insertByKey x ys

/-- `_get_sorted_measurements` (line 141). -/
def sortMeasurements : List Dict → List Dict
  | [] => []
  | x :: xs => insertByKey x (sortMeasurements xs)

/-! ## Rendering-order interface

`generate_pdf_report` builds one section per measurement by iterating
`self.measurements` directly (line 430), and only the final comparison
section consults the sorted order (lines 750-764).
-/

/-- The sequence of measurements rendered as per-measurement sections:
the loop `for i, measurement in enumerate(self.measurements)` walks the
collection in discovery order. -/
def reportSections (ms : List Dict) : List Dict := ms

/-- The `(previous, current)` pair compared at the end of the report:
the second-to-last and the last element of the sorted collection, when at
least two measurements exist (lines 751-764). -/
def comparisonPair (ms : List Dict) : Option (Dict × Dict) :=
  match (sortMeasurements ms).reverse with
  | last :: prev :: _ => some (prev, last)
  | _ => none

/-! ## Sex-category resolution (lines 534-541) -/

/-- `measurement.get("Género", "").lower()` matched against the two code
sets; anything else resolves to the generic category `"otro"`. -/
def resolveSexoStr (genero : String) : String :=
  let g := pyLower genero
  if g == "1" || g == "hombre" || g == "m" || g == "male" then "hombre"
  else if g == "2" || g == "mujer" || g == "f" || g == "female" then "mujer"
  else "otro"

/-- Sex category of a measurement: a missing `"Género"` field defaults to
the empty string before lowercasing. -/
def resolveSexo (m : Dict) : String :=
  resolveSexoStr ((getStr m "Género").getD "")

/-! ## Range classification (body fat, lines 548-560)

The source stores each partition as a list of adjacent `(lo, hi)` ranges
plus labels and renders the position of the measured value on the bar;
it never computes a bucket label itself.
-/

/-- The body-fat range partition per resolved sex category, verbatim from
lines 549-560. -/
def grasaRanges (sexo : String) : List (Rat × Rat) :=
  if sexo = "hombre" then [(0, 8), (8, 20), (20, 25), (25, 45)]
  else if sexo = "mujer" then [(0, 21), (21, 33), (33, 39), (39, 55)]
  else [(0, 10), (10, 20), (20, 30), (30, 50)]

/-- The bucket labels shared by all three body-fat partitions. -/
def grasaLabels : List String := ["Bajo", "Óptimo", "Alto", "Muy alto"]

/-- First bucket `(label, index)` whose half-open range `[lo, hi)`
contains the value. -/
def classifyAux : List ((Rat × Rat) × String) → Nat → Rat → Option (String × Nat)
  | [], _, _ => none
  | (r, lab) :: rest, i, v =>
    if r.1 ≤ v ∧ v < r.2 then some (lab, i) else classifyAux rest (i + 1) v

/-- Modelled from the spec: the Range Classifier contract of §4.5 applied
to the body-fat partition.  The bucket boundary data is taken verbatim
from the source (`grasaRanges`, `grasaLabels`); the membership rule —
each bucket closed on the left and open on the right — follows the spec,
because the source only draws the value on the bar and never evaluates
bucket membership. -/
def classifyGrasa (sexo : String) (v : Rat) : Option (String × Nat) :=
  classifyAux ((grasaRanges sexo).zip grasaLabels) 0 v

/-! ## Comparison engine

Two sites compare the previous and current measurement on one metric:
the comparison table (lines 793-826) and `_plot_comparison_chart`
(lines 202-262).
-/

/-- Color of the difference cell in the comparison table (lines 804-809):
gray below the 0.1 threshold, red for an increase, green for a
decrease. -/
inductive DiffColor where
  | gray
  | red
  | green
deriving DecidableEq, Repr

/-- Round to the nearest integer, ties to even — the rounding `%+.1f`
applies to the scaled value. -/
def roundHalfEven (q : Rat) : Int :=
  if q - ⌊q⌋ < 1 / 2 then ⌊q⌋
  else if q - ⌊q⌋ > 1 / 2 then ⌊q⌋ + 1
  else if 2 ∣ ⌊q⌋ then ⌊q⌋ else ⌊q⌋ + 1

/-- Python `f"{x:+.1f}"`: explicit sign, one digit after the point. -/
def pyFormatPlus1 (x : Rat) : String :=
  let n := (roundHalfEven (x * 10)).natAbs
  (if x < 0 then "-" else "+") ++ toString (n / 10) ++ "." ++ toString (n % 10)

/-- The difference cell computed for one comparison-table row. -/
structure TableDiff where
  diff : Rat
  diffStr : String
  color : DiffColor
deriving DecidableEq, Repr

/-- One field of the comparison table (lines 793-817): `N/A` (here
`none`) when either measurement lacks the field or either value fails the
`float` conversion; otherwise the signed difference
`diff = current - previous` with its color. -/
def tableDiff (prev cur : Dict) (field unit : String) : Option TableDiff :=
  match getStr prev field, getStr cur field with
  | some val1, some val2 =>
    match normTableStr val1, normTableStr val2 with
    | some num1, some num2 =>
      let diff := num2 - num1
      some ⟨diff, pyFormatPlus1 diff ++ unit,
        if |diff| < 1 / 10 then DiffColor.gray
        else if diff > 0 then DiffColor.red
        else DiffColor.green⟩
    | _, _ => none
  | _, _ => none

/-- The numeric content of one comparison chart. -/
structure ChartCompare where
  val1 : Rat
  val2 : Rat
  diff : Rat
  significant : Bool
deriving DecidableEq, Repr

/-- `_plot_comparison_chart` (lines 202-262): `None` when either value is
missing or fails conversion; otherwise both values, the difference
`diff = val2 - val1`, and whether the "Diferencia" annotation is drawn —
exactly when `abs(diff) > 0.1` (line 262). -/
def plotComparisonChart (m1 m2 : Dict) (field : String) : Option ChartCompare :=
  match getStr m1 field, getStr m2 field with
  | some v1, some v2 =>
    match normChartStr v1, normChartStr v2 with
    | some a, some b => some ⟨a, b, b - a, decide (|b - a| > 1 / 10)⟩
    | _, _ => none
  | _, _ => none

/-! ## Lemmas about dictionaries and the row decoder -/

theorem dictGet_insert_self (d : Dict) (k : String) (v : Val) :
    dictGet (dictInsert d k v) k = some v := by
  induction d with
  | nil => simp [dictInsert, dictGet]
  | cons p rest ih =>
    obtain ⟨k0, v0⟩ := p
    by_cases h : k0 = k
    · simp [dictInsert, dictGet, h]
    · simp [dictInsert, dictGet, h, ih]

theorem dictGet_insert_ne (d : Dict) (k k2 : String) (v : Val) (h : k ≠ k2) :
    dictGet (dictInsert d k v) k2 = dictGet d k2 := by
  induction d with
  | nil => simp [dictInsert, dictGet, h]
  | cons p rest ih =>
    obtain ⟨k0, v0⟩ := p
    by_cases h0 : k0 = k
    · subst h0
      simp [dictInsert, dictGet, h]
    · simp [dictInsert, dictGet, h0, ih]

theorem dictGet_insert_isSome (d : Dict) (k k2 : String) (v : Val)
    (h : (dictGet d k2).isSome = true) :
    (dictGet (dictInsert d k v) k2).isSome = true := by
  by_cases hk : k = k2
  · subst hk
    simp [dictGet_insert_self]
  · rwa [dictGet_insert_ne d k k2 v hk]

/-- Decoding more pairs never deletes a key that is already present. -/
theorem decodePairs_keeps : ∀ (rest : List String) (d : Dict) (k : String),
    (dictGet d k).isSome = true → (dictGet (decodePairs rest d) k).isSome = true
  | [], _, _, h => h
  | [_], _, _, h => h
  | _ :: _ :: rest, d, k, h =>
    decodePairs_keeps rest _ k (dictGet_insert_isSome d _ k _ h)

/-- Every code standing at an even position with a value after it ends up
as a present key of the decoded dict. -/
theorem decodePairs_has_key : ∀ (row : List String) (d : Dict) (i : Nat)
    (h : i + 1 < row.length), i % 2 = 0 →
    (dictGet (decodePairs row d) (storeKey (row.get ⟨i, Nat.lt_of_succ_lt h⟩))).isSome = true
  | c :: _ :: rest, d, 0, _, _ =>
    decodePairs_keeps rest _ (storeKey c) (by simp [dictGet_insert_self])
  | _ :: _ :: _, _, 1, _, hmod => by simp at hmod
  | _ :: _ :: rest, d, i + 2, h, hmod =>
    decodePairs_has_key rest _ i
      (by
        have : i + 2 + 1 < rest.length + 1 + 1 := h
        omega)
      (by omega)

/-- An even-length prefix of the token list is decoded first. -/
theorem decodePairs_append : ∀ (xs ys : List String) (d : Dict),
    xs.length % 2 = 0 →
    decodePairs (xs ++ ys) d = decodePairs ys (decodePairs xs d)
  | [], _, _, _ => rfl
  | [_], _, _, h => by simp at h
  | _ :: _ :: rest, ys, d, h =>
    decodePairs_append rest ys _
      (by
        have : (rest.length + 1 + 1) % 2 = 0 := h
        omega)

/-- A trailing unpaired token of an odd-length row is ignored. -/
theorem decodePairs_trailing (row : List String) (x : String) (d : Dict)
    (h : row.length % 2 = 0) :
    decodePairs (row ++ [x]) d = decodePairs row d := by
  rw [decodePairs_append row [x] d h]
  rfl

/-- If none of the pairs of `zs` stores under key `k`, decoding `zs` does
not change the binding of `k`. -/
theorem decodePairs_get_nowrite : ∀ (zs : List String) (d : Dict) (k : String),
    (∀ (i : Nat) (h : i + 1 < zs.length), i % 2 = 0 →
      storeKey (zs.get ⟨i, Nat.lt_of_succ_lt h⟩) ≠ k) →
    dictGet (decodePairs zs d) k = dictGet d k
  | [], _, _, _ => rfl
  | [_], _, _, _ => rfl
  | c :: _ :: rest, d, k, hw =>
    have hc : storeKey c ≠ k :=
      hw 0 (by show 0 + 1 < rest.length + 1 + 1; omega) (by decide)
    (decodePairs_get_nowrite rest _ k
        (fun i hlt hm =>
          hw (i + 2)
            (by
              have : i + 1 < rest.length := hlt
              show i + 2 + 1 < rest.length + 1 + 1
              omega)
            (by omega))).trans
      (dictGet_insert_ne d (storeKey c) k _ hc)

/-- The key a decoded pair is stored under is never one of the three
provenance keys. -/
theorem storeKey_ne_prov (c : String) :
    storeKey c ≠ "file" ∧ storeKey c ≠ "row" ∧ storeKey c ≠ "raw_data" := by
  unfold storeKey
  match hl : tanitaLookup (pyStrip c) with
  | some name =>
    have hmem : ∃ p ∈ TANITA_MAPPINGS, p.2 = name := by
      unfold tanitaLookup at hl
      match hf : TANITA_MAPPINGS.find? (fun p => p.1 == pyStrip c) with
      | some p =>
        refine ⟨p, List.mem_of_find?_eq_some hf, ?_⟩
        rw [hf] at hl
        simpa using hl
      | none => rw [hf] at hl; simp at hl
    obtain ⟨p, hp, hsnd⟩ := hmem
    have hall : ∀ q ∈ TANITA_MAPPINGS,
        q.2 ≠ "file" ∧ q.2 ≠ "row" ∧ q.2 ≠ "raw_data" := by decide
    rw [← hsnd]
    exact hall p hp
  | none =>
    refine ⟨?_, ?_, ?_⟩ <;>
    · intro heq
      have hd := congrArg String.data heq
      rw [String.data_append] at hd
      have h8 : ("Unknown_".data).length = 8 := rfl
      have htake := congrArg (List.take 8) hd
      rw [← h8, List.take_left] at htake
      revert htake
      decide

/-! ## Lemmas about the chronological sorter -/

theorem insertByKey_perm (x : Dict) (l : List Dict) : List.Perm (insertByKey x l) (x :: l) := by
  induction l with
  | nil => rfl
  | cons y ys ih =>
    unfold insertByKey
    by_cases h : parseDatetime x ≤ parseDatetime y
    · rw [if_pos h]
    · rw [if_neg h]
      exact (ih.cons y).trans (List.Perm.swap x y ys)

theorem mem_insertByKey {b x : Dict} {l : List Dict} (h : b ∈ insertByKey x l) :
    b = x ∨ b ∈ l := by
  have := (insertByKey_perm x l).mem_iff.mp h
  simpa using this

theorem insertByKey_sorted (x : Dict) (l : List Dict)
    (h : l.Pairwise (fun a b => parseDatetime a ≤ parseDatetime b)) :
    (insertByKey x l).Pairwise (fun a b => parseDatetime a ≤ parseDatetime b) := by
  induction l with
  | nil => simp [insertByKey]
  | cons y ys ih =>
    rw [List.pairwise_cons] at h
    obtain ⟨hy, hys⟩ := h
    unfold insertByKey
    by_cases hxy : parseDatetime x ≤ parseDatetime y
    · rw [if_pos hxy]
      refine List.Pairwise.cons ?_ (List.Pairwise.cons hy hys)
      intro b hb
      rcases List.mem_cons.mp hb with rfl | hb
      · exact hxy
      · exact le_trans hxy (hy b hb)
    · rw [if_neg hxy]
      refine List.Pairwise.cons ?_ (ih hys)
      intro b hb
      rcases mem_insertByKey hb with rfl | hb
      · exact le_of_not_le hxy
      · exact hy b hb

theorem sortMeasurements_sorted (ms : List Dict) :
    (sortMeasurements ms).Pairwise (fun a b => parseDatetime a ≤ parseDatetime b) := by
  induction ms with
  | nil => simp [sortMeasurements]
  | cons x xs ih => exact insertByKey_sorted x _ ih

theorem sortMeasurements_perm (ms : List Dict) : List.Perm (sortMeasurements ms) ms := by
  induction ms with
  | nil => rfl
  | cons x xs ih =>
    exact (insertByKey_perm x (sortMeasurements xs)).trans (ih.cons x)

theorem filter_insertByKey_eq (x : Dict) (l : List Dict) (k : Nat)
    (hx : parseDatetime x = k) :
    (insertByKey x l).filter (fun m => parseDatetime m == k)
      = x :: l.filter (fun m => parseDatetime m == k) := by
  induction l with
  | nil => simp [insertByKey, List.filter, hx]
  | cons y ys ih =>
    unfold insertByKey
    by_cases h : parseDatetime x ≤ parseDatetime y
    · rw [if_pos h]
      simp [List.filter_cons, hx]
    · rw [if_neg h]
      have hy : (parseDatetime y == k) = false := by
        have : parseDatetime y < parseDatetime x := lt_of_not_le h
        simp only [beq_eq_false_iff_ne, ne_eq]
        omega
      simp [List.filter_cons, hy, ih]

theorem filter_insertByKey_ne (x : Dict) (l : List Dict) (k : Nat)
    (hx : parseDatetime x ≠ k) :
    (insertByKey x l).filter (fun m => parseDatetime m == k)
      = l.filter (fun m => parseDatetime m == k) := by
  have hx2 : (parseDatetime x == k) = false := by simp [hx]
  induction l with
  | nil => simp [insertByKey, List.filter, hx2]
  | cons y ys ih =>
    unfold insertByKey
    by_cases h : parseDatetime x ≤ parseDatetime y
    · rw [if_pos h]
      simp [List.filter_cons, hx]
    · rw [if_neg h]
      simp [List.filter_cons, ih]

/-- Stability: the subsequence of measurements with any fixed key is
untouched by the sort. -/
theorem sortMeasurements_filter (ms : List Dict) (k : Nat) :
    (sortMeasurements ms).filter (fun m => parseDatetime m == k)
      = ms.filter (fun m => parseDatetime m == k) := by
  induction ms with
  | nil => rfl
  | cons x xs ih =>
    show (insertByKey x (sortMeasurements xs)).filter _ = _
    by_cases h : parseDatetime x = k
    · rw [filter_insertByKey_eq x _ k h, ih, List.filter_cons]
      simp [h]
    · rw [filter_insertByKey_ne x _ k h, ih, List.filter_cons]
      simp [h]

theorem parseField2_bounds {l : List Char} {lo hi v : Nat}
    (h : parseField2 l lo hi = some v) : lo ≤ v ∧ v ≤ hi := by
  unfold parseField2 at h
  split at h
  · next hc =>
    simp only [Bool.and_eq_true, decide_eq_true_eq] at hc
    obtain ⟨⟨⟨-, -⟩, h1⟩, h2⟩ := hc
    cases h
    exact ⟨h1, h2⟩
  · exact absurd h (by simp)

theorem parseYear_pos {l : List Char} {v : Nat}
    (h : parseYear l = some v) : 1 ≤ v := by
  unfold parseYear at h
  split at h
  · next hc =>
    simp only [Bool.and_eq_true, decide_eq_true_eq] at hc
    cases h
    exact hc.2
  · exact absurd h (by simp)

theorem parseFecha_bounds {s : String} {y mo d : Nat}
    (h : parseFecha s = some (y, mo, d)) : 1 ≤ y ∧ 1 ≤ mo ∧ 1 ≤ d := by
  unfold parseFecha at h
  split at h
  · split at h
    · next hd hm hy =>
      split at h
      · cases h
        exact ⟨parseYear_pos hy, (parseField2_bounds hm).1, (parseField2_bounds hd).1⟩
      · exact absurd h (by simp)
    · exact absurd h (by simp)
  · exact absurd h (by simp)

theorem dtMin_le_encode (y mo d h mi s : Nat)
    (hy : 1 ≤ y) (hmo : 1 ≤ mo) (hd : 1 ≤ d) :
    dtMin ≤ encodeDT y mo d h mi s := by
  unfold dtMin encodeDT
  nlinarith [Nat.zero_le h, Nat.zero_le mi, Nat.zero_le s]

/-- Every sort key is at least the fallback key `datetime.min`. -/
theorem dtMin_le_parseDatetime (m : Dict) : dtMin ≤ parseDatetime m := by
  unfold parseDatetime
  match hp : parseDatetimeOpt m with
  | none => simp
  | some t =>
    simp only [Option.getD_some]
    unfold parseDatetimeOpt at hp
    split at hp
    · split at hp
      · exact absurd hp (by simp)
      · split at hp
        · next y mo d hh mi ss hf hh2 =>
          cases hp
          obtain ⟨hy, hmo, hd⟩ := parseFecha_bounds hf
          exact dtMin_le_encode _ _ _ _ _ _ hy hmo hd
        · exact absurd hp (by simp)
    · exact absurd hp (by simp)

/-- In a sorted list whose reverse starts with `c`, the key of `c` bounds
the key of every member. -/
theorem sorted_reverse_max (l : List Dict) (c : Dict) (r : List Dict)
    (hs : l.Pairwise (fun a b => parseDatetime a ≤ parseDatetime b))
    (hr : l.reverse = c :: r) :
    ∀ m ∈ l, parseDatetime m ≤ parseDatetime c := by
  have hl : l = r.reverse ++ [c] := by
    have h2 := congrArg List.reverse hr
    simpa using h2
  rw [hl] at hs
  rw [hl]
  intro m hm
  rw [List.pairwise_append] at hs
  rcases List.mem_append.mp hm with hm | hm
  · exact hs.2.2 m hm c (by simp)
  · simp at hm
    subst hm
    exact le_refl _

/-! ## Lemmas about normalization and formatting -/

theorem string_mk_data (s : String) : (⟨s.data⟩ : String) = s := by
  cases s
  rfl

theorem stripPct_of_no_pct (s : String) (h : ∀ c ∈ s.data, c ≠ '%') :
    stripPct s = s := by
  unfold stripPct
  have he : s.data.filter (fun c => c ≠ '%') = s.data :=
    List.filter_eq_self.mpr (fun a ha => decide_eq_true (h a ha))
  rw [he, string_mk_data]

theorem filter_pct_trailing : ∀ (l : List Char), (∀ c ∈ l.dropLast, c ≠ '%') →
    l.filter (fun c => c ≠ '%') = if l.getLast? = some '%' then l.dropLast else l := by
  intro l h
  rcases List.eq_nil_or_concat l with hnil | ⟨t, a, hconc⟩
  · subst hnil
    simp
  · subst hconc
    rw [List.concat_eq_append] at h ⊢
    rw [List.dropLast_concat] at h
    have ht : t.filter (fun c => c ≠ '%') = t :=
      List.filter_eq_self.mpr (fun a ha => decide_eq_true (h a ha))
    rw [List.filter_append, ht, List.getLast?_concat, List.dropLast_concat]
    by_cases ha : a = '%'
    · subst ha
      simp
    · simp [List.filter, ha]

theorem to_number_eq_spec (s : String) (h : ∀ c ∈ s.data.dropLast, c ≠ '%') :
    to_number s = to_number_spec s := by
  unfold to_number to_number_spec stripPct
  rw [filter_pct_trailing s.data h]
  split
  · rfl
  · rw [string_mk_data]

theorem pyFormatPlus1_head (x : Rat) :
    (pyFormatPlus1 x).data.head? = some (if x < 0 then '-' else '+') := by
  unfold pyFormatPlus1
  by_cases h : x < 0
  · rw [if_pos h, if_pos h]
    rw [String.data_append]
    rfl
  · rw [if_neg h, if_neg h]
    rw [String.data_append]
    rfl

/-! ## Example measurements for the concrete instances below -/

/-- A measurement dated 02/01/2024 09:00:00, from the spec sorting
example. -/
def exMA : Dict := parseMeasurementRow ["DT", "02/01/2024", "Ti", "09:00:00"] "DATA2.CSV" 0

/-- A measurement dated 01/01/2024 10:00:00. -/
def exMB : Dict := parseMeasurementRow ["DT", "01/01/2024", "Ti", "10:00:00"] "DATA1.CSV" 0

/-- A measurement whose date does not parse under `%d/%m/%Y`. -/
def exMU : Dict := parseMeasurementRow ["DT", "fecha rota", "Ti", "10:00:00"] "DATA3.CSV" 0

/-- BMI 0 — previous measurement of the threshold instance. -/
def exP0 : Dict := parseMeasurementRow ["MI", "0"] "DATA1.CSV" 0

/-- BMI 0,1 — current measurement of the threshold instance. -/
def exC0 : Dict := parseMeasurementRow ["MI", "0,1"] "DATA2.CSV" 0

/-- BMI 24.0 — previous measurement of the spec comparison example. -/
def exP1 : Dict := parseMeasurementRow ["MI", "24.0"] "DATA1.CSV" 0

/-- BMI 25.2 — current measurement of the spec comparison example. -/
def exC1 : Dict := parseMeasurementRow ["MI", "25.2"] "DATA2.CSV" 0

/-! ## Claim theorems -/

section ClaimTheorems

attribute [local semireducible] Rat.add Rat.inv Rat.mul Rat.sub

/-- C4 counterexample: the claim says `to_number` strips only a *trailing*
percent sign, so `"%20"` should fail the decimal parse and be absent; the
source pattern removes every percent sign, so the same input normalizes to
20. -/
theorem C4_leading_percent_counterexample :
    to_number "%20" = some 20 ∧ to_number_spec "%20" = none := by
  exact ⟨by decide, by decide⟩

/-- C4 (amended): `to_number` removes every percent sign (not only a
trailing one), replaces commas with dots, then attempts a decimal parse;
any failure yields absent and never an exception (totality is the
`Option` codomain); the four listed examples hold, and the two policies
agree on every string whose percent signs occur only in the last
position. -/
theorem C4_to_number_amended :
    to_number "83,5" = some (167 / 2) ∧ to_number "20%" = some 20 ∧
    to_number "abc" = none ∧ to_number "" = none ∧
    (∀ s : String, (∀ c ∈ s.data.dropLast, c ≠ '%') → to_number s = to_number_spec s) := by
  exact ⟨by decide, by decide, by decide, by decide, to_number_eq_spec⟩

/-- C4 witness: on `"20%"`, whose only percent sign is trailing, the
source pattern and the spec algorithm agree. -/
theorem C4_to_number_witness : to_number "20%" = to_number_spec "20%" :=
  C4_to_number_amended.2.2.2.2 "20%" (by decide)

/-- C2 counterexample: the same raw string `"20%"` normalizes to 20 at the
body-fat site but to absent at the BMI site, so normalization is not one
shared function with a single policy. -/
theorem C2_percent_site_counterexample :
    normGrasaStr "20%" = some 20 ∧ normIMCStr "20%" = none := by
  exact ⟨by decide, by decide⟩

/-- C2 (amended): the body-fat, muscle, water, comparison-table and
comparison-chart sites share one normalization (remove percent signs,
commas to dots, parse); the BMI and visceral-fat sites share a second one
that omits the percent removal; on percent-free strings all sites
agree. -/
theorem C2_normalization_sites_amended :
    (∀ s : String, normGrasaStr s = normMuscStr s ∧ normMuscStr s = normAguaStr s ∧
      normAguaStr s = normTableStr s ∧ normTableStr s = normChartStr s) ∧
    (∀ s : String, normIMCStr s = normVisceralStr s) ∧
    (∀ s : String, (∀ c ∈ s.data, c ≠ '%') → normIMCStr s = normGrasaStr s) := by
  refine ⟨fun s => ⟨rfl, rfl, rfl, rfl⟩, fun s => rfl, ?_⟩
  intro s h
  unfold normIMCStr normGrasaStr
  rw [stripPct_of_no_pct s h]

/-- C2 witness: the shared-policy group agrees on `"83,5"`, and the two
policies agree on the percent-free string `"24.1"`. -/
theorem C2_normalization_sites_witness :
    normGrasaStr "83,5" = normTableStr "83,5" ∧ normIMCStr "24.1" = normGrasaStr "24.1" := by
  have h := C2_normalization_sites_amended.1 "83,5"
  exact ⟨h.1.trans (h.2.1.trans h.2.2.1), C2_normalization_sites_amended.2.2 "24.1" (by decide)⟩

/-- C7: for male body fat the classifier realises exactly the ordered
partition [0,8) Bajo (Low), [8,20) Óptimo (Optimal), [20,25) Alto (High),
[25,45) Muy alto (Very High), each bucket closed on the left and open on
the right; in particular 8.0 classifies as Óptimo and 7.999 as Bajo. -/
theorem C7_fat_buckets :
    (∀ v : Rat, classifyGrasa "hombre" v =
      (if 0 ≤ v ∧ v < 8 then some ("Bajo", 0)
      else if 8 ≤ v ∧ v < 20 then some ("Óptimo", 1)
      else if 20 ≤ v ∧ v < 25 then some ("Alto", 2)
      else if 25 ≤ v ∧ v < 45 then some ("Muy alto", 3)
      else none)) ∧
    classifyGrasa "hombre" 8 = some ("Óptimo", 1) ∧
    classifyGrasa "hombre" (7999 / 1000) = some ("Bajo", 0) := by
  exact ⟨fun v => rfl, by decide, by decide⟩

/-- C8: sex-category resolution lowercases the recorded string and is
total: the four male spellings resolve to the male category, the four
female spellings to the female category, anything else — including a
missing field — to the generic category, so classification is never
refused. -/
theorem C8_sex_resolution :
    (∀ s : String,
      (pyLower s = "1" ∨ pyLower s = "hombre" ∨ pyLower s = "m" ∨ pyLower s = "male") →
      resolveSexoStr s = "hombre") ∧
    (∀ s : String,
      (pyLower s = "2" ∨ pyLower s = "mujer" ∨ pyLower s = "f" ∨ pyLower s = "female") →
      resolveSexoStr s = "mujer") ∧
    (∀ s : String,
      pyLower s ∉ (["1", "hombre", "m", "male", "2", "mujer", "f", "female"] : List String) →
      resolveSexoStr s = "otro") ∧
    (∀ m : Dict, getStr m "Género" = none → resolveSexo m = "otro") ∧
    (∀ m : Dict, resolveSexo m = "hombre" ∨ resolveSexo m = "mujer" ∨ resolveSexo m = "otro") := by
  refine ⟨?_, ?_, ?_, ?_, ?_⟩
  · intro s hs
    rcases hs with h | h | h | h <;> · simp only [resolveSexoStr, h]; decide
  · intro s hs
    rcases hs with h | h | h | h <;> · simp only [resolveSexoStr, h]; decide
  · intro s hs
    simp only [List.mem_cons, List.not_mem_nil, or_false, not_or] at hs
    obtain ⟨h1, h2, h3, h4, h5, h6, h7, h8⟩ := hs
    unfold resolveSexoStr
    rw [if_neg, if_neg]
    · simp [h5, h6, h7, h8]
    · simp [h1, h2, h3, h4]
  · intro m h
    unfold resolveSexo
    rw [h]
    decide
  · intro m
    unfold resolveSexo resolveSexoStr
    dsimp only
    split_ifs <;> simp

/-- C8 witness: `"HOMBRE"` resolves to the male category and `"xyz"` to
the generic one. -/
theorem C8_sex_witness :
    resolveSexoStr "HOMBRE" = "hombre" ∧ resolveSexoStr "xyz" = "otro" :=
  ⟨C8_sex_resolution.1 "HOMBRE" (Or.inr (Or.inl (by decide))),
   C8_sex_resolution.2.2.1 "xyz" (by decide)⟩

/-- C10: decoding never overwrites provenance: after
`_parse_measurement_row` the dict still maps `"file"` to the source file
basename, `"row"` to the 1-based row number and `"raw_data"` to the
original token list, because every decoded pair stores under a code-table
field name or an `"Unknown_"`-prefixed key and neither can equal those
three keys. -/
theorem C10_provenance_preserved (row : List String) (f : String) (n : Nat) :
    dictGet (parseMeasurementRow row f n) "file" = some (Val.str (pyBasename f)) ∧
    dictGet (parseMeasurementRow row f n) "row" = some (Val.int (n + 1)) ∧
    dictGet (parseMeasurementRow row f n) "raw_data" = some (Val.row row) := by
  unfold parseMeasurementRow
  refine ⟨?_, ?_, ?_⟩
  · rw [decodePairs_get_nowrite row _ "file" (fun i h hm => (storeKey_ne_prov _).1)]
    rfl
  · rw [decodePairs_get_nowrite row _ "row" (fun i h hm => (storeKey_ne_prov _).2.1)]
    rfl
  · rw [decodePairs_get_nowrite row _ "raw_data" (fun i h hm => (storeKey_ne_prov _).2.2)]
    rfl


/-- C1 counterexample: with the later-dated measurement discovered first,
the sections of the report keep the raw discovery order while the
chronological sorter would swap the two, so the rendered sequence does not
equal the sorter output. -/
theorem C1_raw_order_counterexample :
    reportSections [exMA, exMB] ≠ sortMeasurements [exMA, exMB] := by decide

/-- C1 (amended): `generate_pdf_report` renders the per-measurement
sections in raw discovery order, not sorted; only the final comparison
section consults the chronological sorter, and the pair it selects is the
two chronologically latest measurements (the current one carries the
maximal sort key of the whole run). -/
theorem C1_report_order_amended (ms : List Dict) :
    reportSections ms = ms ∧
    (∀ p c, comparisonPair ms = some (p, c) →
      parseDatetime p ≤ parseDatetime c ∧ ∀ m ∈ ms, parseDatetime m ≤ parseDatetime c) := by
  refine ⟨rfl, ?_⟩
  intro p c hpc
  unfold comparisonPair at hpc
  split at hpc
  · next a b t hrev =>
    cases hpc
    have hmax := sorted_reverse_max (sortMeasurements ms) c (p :: t)
      (sortMeasurements_sorted ms) hrev
    constructor
    · refine hmax p (List.mem_reverse.mp ?_)
      rw [hrev]
      simp
    · intro m hm
      exact hmax m ((sortMeasurements_perm ms).mem_iff.mpr hm)
  · exact absurd hpc (by simp)

/-- C1 witness: in a three-measurement run discovered out of order, the
sections keep discovery order and the comparison pair is bounded by the
chronologically latest measurement. -/
theorem C1_report_order_witness :
    reportSections [exMA, exMU, exMB] = [exMA, exMU, exMB] ∧
    parseDatetime exMB ≤ parseDatetime exMA ∧ parseDatetime exMU ≤ parseDatetime exMA := by
  refine ⟨(C1_report_order_amended [exMA, exMU, exMB]).1, ?_, ?_⟩
  · exact ((C1_report_order_amended [exMA, exMU, exMB]).2 exMB exMA (by decide)).1
  · exact ((C1_report_order_amended [exMA, exMU, exMB]).2 exMB exMA (by decide)).2 exMU (by decide)

/-- C3 counterexample: at delta exactly 0.1 (previous BMI `"0"`, current
`"0,1"`) the comparison table colors the difference red — it treats it as
significant — although `|delta| > 0.1` is false, and the chart draws no
significance annotation on the same input; so the significance flag is not
`|delta| > 0.1` at every site. -/
theorem C3_threshold_counterexample :
    tableDiff exP0 exC0 "Índice de masa corporal (IMC)" "" =
      some ⟨1 / 10, "+0.1", DiffColor.red⟩ ∧
    plotComparisonChart exP0 exC0 "Índice de masa corporal (IMC)" =
      some ⟨0, 1 / 10, 1 / 10, false⟩ ∧
    ¬(|(1 : Rat) / 10| > 1 / 10) := by
  exact ⟨by decide, by decide, by decide⟩

/-- C3 (amended): both comparison sites compute
`delta = current - previous` and format it with an explicit sign, and
return absent when a value is missing or fails normalization; the chart
flags significance exactly when `|delta| > 0.1`, while the table colors
the delta as non-significant gray only when `|delta| < 0.1`, so the two
sites differ exactly at `|delta| = 0.1`. -/
theorem C3_compare_amended (p c : Dict) (field unit : String) :
    ((getStr p field = none ∨ getStr c field = none) →
      tableDiff p c field unit = none ∧ plotComparisonChart p c field = none) ∧
    (∀ v1 v2, getStr p field = some v1 → getStr c field = some v2 →
      ((normTableStr v1 = none ∨ normTableStr v2 = none) → tableDiff p c field unit = none) ∧
      ((normChartStr v1 = none ∨ normChartStr v2 = none) → plotComparisonChart p c field = none) ∧
      (∀ a b, normTableStr v1 = some a → normTableStr v2 = some b →
        tableDiff p c field unit =
          some ⟨b - a, pyFormatPlus1 (b - a) ++ unit,
            if |b - a| < 1 / 10 then DiffColor.gray
            else if b - a > 0 then DiffColor.red
            else DiffColor.green⟩ ∧
        plotComparisonChart p c field = some ⟨a, b, b - a, decide (|b - a| > 1 / 10)⟩)) ∧
    (∀ x : Rat, (pyFormatPlus1 x).data.head? = some (if x < 0 then '-' else '+')) := by
  refine ⟨?_, ?_, pyFormatPlus1_head⟩
  · intro h
    rcases hgp : getStr p field with _ | v1 <;> rcases hgc : getStr c field with _ | v2
    · exact ⟨by simp [tableDiff, hgp, hgc], by simp [plotComparisonChart, hgp, hgc]⟩
    · exact ⟨by simp [tableDiff, hgp, hgc], by simp [plotComparisonChart, hgp, hgc]⟩
    · exact ⟨by simp [tableDiff, hgp, hgc], by simp [plotComparisonChart, hgp, hgc]⟩
    · rw [hgp, hgc] at h
      simp at h
  · intro v1 v2 hv1 hv2
    refine ⟨?_, ?_, ?_⟩
    · intro h
      rcases h with h | h
      · simp [tableDiff, hv1, hv2, h]
      · rcases hn1 : normTableStr v1 with _ | a
        · simp [tableDiff, hv1, hv2, hn1]
        · simp [tableDiff, hv1, hv2, hn1, h]
    · intro h
      rcases h with h | h
      · simp [plotComparisonChart, hv1, hv2, h]
      · rcases hn1 : normChartStr v1 with _ | a
        · simp [plotComparisonChart, hv1, hv2, hn1]
        · simp [plotComparisonChart, hv1, hv2, hn1, h]
    · intro a b hn1 hn2
      constructor
      · simp [tableDiff, hv1, hv2, hn1, hn2]
      · have hc1 : normChartStr v1 = some a := hn1
        have hc2 : normChartStr v2 = some b := hn2
        simp [plotComparisonChart, hv1, hv2, hc1, hc2]

/-- C3 witness: the spec example — previous BMI 24.0, current 25.2 —
yields delta +1.2, colored red in the table, and a chart significance flag
of true. -/
theorem C3_compare_witness :
    tableDiff exP1 exC1 "Índice de masa corporal (IMC)" "" =
      some ⟨6 / 5, "+1.2", DiffColor.red⟩ ∧
    plotComparisonChart exP1 exC1 "Índice de masa corporal (IMC)" =
      some ⟨24, 126 / 5, 6 / 5, true⟩ := by
  have h := ((C3_compare_amended exP1 exC1 "Índice de masa corporal (IMC)" "").2.1 "24.0" "25.2"
    (by decide) (by decide)).2.2 24 (126 / 5) (by decide) (by decide)
  exact ⟨h.1.trans (by decide), h.2.trans (by decide)⟩

/-- C5: sorting is ascending by the parsed day/month/year hour:minute:second
key, drops nothing (it permutes the input), is stable (the subsequence at
any fixed key is preserved), and a measurement whose date or time is
missing, empty or unparsable gets the minimum representable timestamp as
its key and hence bounds no measurement from below. -/
theorem C5_sort_chronological (ms : List Dict) :
    (sortMeasurements ms).Pairwise (fun a b => parseDatetime a ≤ parseDatetime b) ∧
    List.Perm (sortMeasurements ms) ms ∧
    (∀ k : Nat, (sortMeasurements ms).filter (fun m => parseDatetime m == k)
      = ms.filter (fun m => parseDatetime m == k)) ∧
    (∀ m ∈ ms, parseDatetimeOpt m = none →
      parseDatetime m = dtMin ∧ ∀ m2 ∈ ms, parseDatetime m ≤ parseDatetime m2) := by
  refine ⟨sortMeasurements_sorted ms, sortMeasurements_perm ms, sortMeasurements_filter ms, ?_⟩
  intro m _ hm
  have h1 : parseDatetime m = dtMin := by
    unfold parseDatetime
    rw [hm]
    rfl
  refine ⟨h1, ?_⟩
  intro m2 _
  rw [h1]
  exact dtMin_le_parseDatetime m2

/-- C5 witness: the spec sorting example — 01/01/2024 10:00:00 sorts
before 02/01/2024 09:00:00 and an unparsable-date measurement sorts before
both, with the fallback key `datetime.min`. -/
theorem C5_sort_witness :
    sortMeasurements [exMA, exMU, exMB] = [exMU, exMB, exMA] ∧
    parseDatetime exMU = dtMin ∧ parseDatetime exMU ≤ parseDatetime exMA := by
  have h := (C5_sort_chronological [exMA, exMU, exMB]).2.2.2 exMU (by decide) (by decide)
  exact ⟨by decide, h.1, h.2 exMA (by decide)⟩

/-- C6: decoding retains every code/value pair of a row with at least two
tokens — the key of each even-position code with a following value is
present in the decoded dict; a mapped code stores under its table name and
an unmapped one under `"Unknown_"` plus its stripped code; a row with
fewer than two tokens is skipped before decoding; and a trailing unpaired
token of an odd-length row is ignored. -/
theorem C6_decode_retention :
    (∀ (row : List String) (f : String) (n i : Nat) (h : i + 1 < row.length), i % 2 = 0 →
      (dictGet (parseMeasurementRow row f n)
        (storeKey (row.get ⟨i, Nat.lt_of_succ_lt h⟩))).isSome = true) ∧
    (∀ c name : String, tanitaLookup (pyStrip c) = some name → storeKey c = name) ∧
    (∀ c : String, tanitaLookup (pyStrip c) = none → storeKey c = "Unknown_" ++ pyStrip c) ∧
    (∀ (f : String) (k : Nat) (r : List String) (rs : List (List String)), r.length < 2 →
      parseCsvRowsFrom f k (r :: rs) = parseCsvRowsFrom f (k + 1) rs) ∧
    (∀ (f : String) (k : Nat) (r : List String) (rs : List (List String)), 2 ≤ r.length →
      parseCsvRowsFrom f k (r :: rs) = parseMeasurementRow r f k :: parseCsvRowsFrom f (k + 1) rs) ∧
    (∀ (row : List String) (x : String) (d : Dict), row.length % 2 = 0 →
      decodePairs (row ++ [x]) d = decodePairs row d) := by
  refine ⟨?_, ?_, ?_, ?_, ?_, decodePairs_trailing⟩
  · intro row f n i h hmod
    exact decodePairs_has_key row _ i h hmod
  · intro c name hl
    unfold storeKey
    rw [hl]
  · intro c hl
    unfold storeKey
    rw [hl]
  · intro f k r rs h
    simp [parseCsvRowsFrom, h]
  · intro f k r rs h
    have h2 : ¬(r.length < 2) := Nat.not_lt.mpr h
    simp [parseCsvRowsFrom, h2]

/-- C6 witness: the unmapped code `"XX"` at even position 2 of a
five-token row is present under `"Unknown_XX"`; a one-token row is
skipped; and the trailing token of an odd row changes nothing. -/
theorem C6_decode_witness :
    (dictGet (parseMeasurementRow ["FW", "18", "XX", "5", "Wk"] "DATA1.CSV" 0)
      (storeKey (["FW", "18", "XX", "5", "Wk"].get ⟨2, by decide⟩))).isSome = true ∧
    parseCsvRowsFrom "DATA1.CSV" 0 [["x"], ["FW", "18"]]
      = parseCsvRowsFrom "DATA1.CSV" 1 [["FW", "18"]] ∧
    decodePairs (["FW", "18"] ++ ["Wk"]) [] = decodePairs ["FW", "18"] [] := by
  refine ⟨?_, ?_, ?_⟩
  · exact C6_decode_retention.1 ["FW", "18", "XX", "5", "Wk"] "DATA1.CSV" 0 2 (by decide) (by decide)
  · exact C6_decode_retention.2.2.2.1 "DATA1.CSV" 0 ["x"] [["FW", "18"]] (by decide)
  · exact C6_decode_retention.2.2.2.2.2 ["FW", "18"] "Wk" [] (by decide)

/-- C9: when two pairs of one row store under the same field name, the
decoded dict holds the value of the later pair (last write wins), and
decoding such rows is total. -/
theorem C9_last_write_wins (xs ys zs : List String) (c1 v1 c2 v2 f : String) (n : Nat)
    (hxs : xs.length % 2 = 0) (hys : ys.length % 2 = 0)
    (hkey : storeKey c1 = storeKey c2)
    (hzs : ∀ (i : Nat) (h : i + 1 < zs.length), i % 2 = 0 →
      storeKey (zs.get ⟨i, Nat.lt_of_succ_lt h⟩) ≠ storeKey c2) :
    dictGet (parseMeasurementRow (xs ++ c1 :: v1 :: (ys ++ c2 :: v2 :: zs)) f n)
      (storeKey c1) = some (Val.str (pyStrip v2)) := by
  rw [hkey]
  unfold parseMeasurementRow
  rw [decodePairs_append xs _ _ hxs]
  show dictGet (decodePairs (ys ++ c2 :: v2 :: zs) _) _ = _
  rw [decodePairs_append ys _ _ hys]
  show dictGet (decodePairs zs _) _ = _
  rw [decodePairs_get_nowrite zs _ _ hzs]
  exact dictGet_insert_self _ _ _

/-- C9 witness: the row `FW,18,FW,19` decodes with total body fat `"19"`,
the value of the later pair. -/
theorem C9_last_write_witness :
    dictGet (parseMeasurementRow ["FW", "18", "FW", "19"] "DATA1.CSV" 0)
      "Grasa corporal total %" = some (Val.str "19") := by
  have h := C9_last_write_wins [] [] [] "FW" "18" "FW" "19" "DATA1.CSV" 0
    (by decide) (by decide) rfl (fun i hlt => absurd hlt (Nat.not_lt_zero _))
  exact h

end ClaimTheorems

end Tanita
